import Mathlib

/-!
# Verification of the integrity-scanner core

Shallow embedding of `siren_backend/services/integrity_scanner/scanner.py`
(class `IntegrityScanner`) together with the thin argument-passing layer of
`siren_backend/services/integrity_scanner/routes.py`.

Modelling conventions:
* Python dicts (the job table `self.scans`, the baseline table
  `self.baselines`, and file snapshots) are insertion-ordered association
  lists with the dict operations `dictContains` / `dictLookup` /
  `dictInsert` below.
* The file system is an explicit parameter (`FileSystem`): `os.path.exists`,
  `os.walk`, `os.stat` composed with `datetime.fromtimestamp(...).isoformat()`
  (a stat that raises the locally caught `PermissionError`/`OSError` is
  `none`), reading a file's bytes (`none` models any read failure caught by
  the hasher), and an abstract `hashlib.sha256(...).hexdigest()`.
* The timestamp provider `get_timestamp` and the `uuid`-based job-id
  generator are supplied through `Env`.
* The dispatcher (`routes.py`) forwards the request body's `scan_paths`
  value untyped; a value that is not a list raises `TypeError` at the
  `for scan_path in scan_paths` loop header, which escapes `_execute_scan`
  and is caught by `start_scan`'s handler.  `ScanPathsArg.invalid` models
  exactly that raise (the only escape route out of `_execute_scan`: every
  file-system fault inside the walk loop is caught by the per-root
  `except Exception: continue`, and the inner `except (PermissionError,
  OSError)` swallows per-file stat faults).
-/

set_option maxRecDepth 100000

namespace Siren

/-- One snapshot entry: the value stored at `current_snapshot[filepath]`
(scanner.py lines 129-133). -/
structure FileData where
  hash : String
  size : Nat
  modified : String
  deriving DecidableEq, Repr

/-- A snapshot is the Python dict `{filepath: file data}` in insertion order. -/
abbrev Snapshot := List (String × FileData)

/-- Python `k in d` on an insertion-ordered dict modelled as an association list. -/
def dictContains {α : Type} : List (String × α) → String → Bool
  | [], _ => false
  | e :: rest, k => e.1 == k || dictContains rest k

/-- Python `d[k]` / `d.get(k)` on an insertion-ordered dict. -/
def dictLookup {α : Type} : List (String × α) → String → Option α
  | [], _ => none
  | e :: rest, k => if e.1 = k then some e.2 else dictLookup rest k

/-- Python `d[k] = v`: replaces the value of an existing key in place,
otherwise appends the new binding at the end. -/
def dictInsert {α : Type} (l : List (String × α)) (k : String) (v : α) : List (String × α) :=
  if dictContains l k then l.map (fun e => if e.1 = k then (k, v) else e)
  else l ++ [(k, v)]

/-- One detected deviation (the dicts appended to `changes`).  Keys absent
from a given record kind are `none`. -/
structure ChangeRecord where
  path : String
  change : String
  severity : String
  hash : Option String := none
  previous_hash : Option String := none
  deriving DecidableEq, Repr

/-- Per-host baseline: the value stored at `self.baselines[host_id]`
(scanner.py lines 154-159). -/
structure Baseline where
  host_id : String
  created_at : String
  snapshot : Snapshot
  file_count : Nat
  deriving DecidableEq, Repr

/-- The `scan_paths` value the dispatcher forwards from the request body:
absent (`None` in Python, replaced by the default list), a list of path
strings, or a non-iterable value whose iteration raises `TypeError` with
the given message. -/
inductive ScanPathsArg
  | noPaths
  | paths (l : List String)
  | invalid (msg : String)
  deriving DecidableEq, Repr

/-- A scan job record: the value stored at `self.scans[job_id]`
(scanner.py lines 62-72 plus the fields added on completion/failure). -/
structure ScanJob where
  job_id : String
  host : String
  status : String
  timestamp : String
  scan_paths : ScanPathsArg
  baseline_score : Nat
  changes : List ChangeRecord
  files_scanned : Nat
  severity : String
  error : Option String := none
  completed_at : Option String := none
  deriving DecidableEq, Repr

/-- The scanner's two mutable tables (`self.scans`, `self.baselines`). -/
structure ScannerState where
  scans : List (String × ScanJob)
  baselines : List (String × Baseline)
  deriving DecidableEq, Repr

/-- The dict returned by `IntegrityScanner.start_scan` (lines 84-88). -/
structure StartResult where
  job_id : String
  status : String
  message : String
  deriving DecidableEq, Repr

/-- One `(root, dirs, files)` triple yielded by `os.walk`. -/
structure WalkEntry where
  dir : String
  subdirs : List String
  files : List String
  deriving DecidableEq, Repr

/-- The external world the scanner reads: `os.path.exists`, `os.walk`,
`os.stat` fused with the timestamp formatting (`none` models a stat call
raising the locally caught `PermissionError`/`OSError`), the bytes readable
from a file (`none` models any read failure inside the hasher's `try`), and
`hashlib.sha256` hex digesting as an abstract function of the byte stream. -/
structure FileSystem where
  pathExists : String → Bool
  walk : String → List WalkEntry
  stat : String → Option (Nat × String)
  readFile : String → Option (List Nat)
  sha256hex : List Nat → String

/-- External collaborators of one `start_scan` call: the generated
`scan-{uuid4 hex8}` job id and the `get_timestamp()` value. -/
structure Env where
  job_id : String
  timestamp : String
  deriving DecidableEq, Repr

/-- Python `os.path.join(root, file)` for a relative file name under a root
directory (POSIX-style separator). -/
def osJoin (dir file : String) : String :=
  dir ++ "/" ++ file

/-- The default Windows critical paths substituted when `scan_paths` is
`None` (scanner.py lines 52-59). -/
def default_scan_paths : List String :=
  ["C:\\Windows\\System32",
   "C:\\Windows\\System32\\drivers",
   "C:\\Program Files",
   "C:\\Users\\Public",
   "C:\\ProgramData"]

/-- The loop `for chunk in iter(lambda: f.read(8192), b'')` of
`_calculate_file_hash`: the byte stream cut into chunks of at most
8192 bytes. -/
def readChunks (bytes : List Nat) : List (List Nat) :=
  if h : bytes = [] then []
  else bytes.take 8192 :: readChunks (bytes.drop 8192)
termination_by bytes.length
decreasing_by
  simp only [List.length_drop]
  have hpos : 0 < bytes.length := List.length_pos.mpr h
  omega

/-- Model of `IntegrityScanner._calculate_file_hash` (scanner.py lines 177-198):
streams the file's bytes chunkwise into the hasher (incremental `update`
calls amount to digesting the concatenation of the chunks) and returns the
hex digest; any read failure is caught and yields `"hash_failed"`.  The
function is total: no exception reaches the caller. -/
def calculate_file_hash (fs : FileSystem) (filepath : String) : String :=
  match fs.readFile filepath with
  | some bytes => fs.sha256hex (readChunks bytes).flatten
  | none => "hash_failed"

/-- Does the character list start with the given pattern? -/
def listStartsWith : List Char → List Char → Bool
  | _, [] => true
  | [], _ :: _ => false
  | a :: as, b :: bs => a == b && listStartsWith as bs

/-- Is the pattern a contiguous sublist of the character list? -/
def listContainsSub (text pat : List Char) : Bool :=
  match text with
  | [] => listStartsWith [] pat
  | _ :: rest => listStartsWith text pat || listContainsSub rest pat

/-- Python `pattern in text`: contiguous substring containment. -/
def containsSub (text pat : String) : Bool :=
  listContainsSub text.toList pat.toList

/-- High-risk path fragments of `_assess_file_risk` (scanner.py lines 261-269). -/
def high_risk_indicators : List String :=
  ["system32\\drivers",
   "system32\\config",
   "windows\\system32\\",
   "startup",
   "run\\",
   "temp\\",
   "public\\"]

/-- Medium-risk path fragments of `_assess_file_risk` (scanner.py lines 272-276). -/
def medium_risk_indicators : List String :=
  ["program files",
   "programdata",
   "users\\"]

/-- Python `str.lower()` on the ASCII path text concerned: every character
mapped to lower case. -/
def strLower (s : String) : String := String.mk (s.data.map Char.toLower)

/-- Model of `IntegrityScanner._assess_file_risk` (scanner.py lines 248-286):
lowercases the path, scans the high-risk fragments first, then the
medium-risk fragments, defaulting to `"low"`. -/
def assess_file_risk (filepath : String) : String :=
  let filepath_lower := strLower filepath
  if high_risk_indicators.any (fun ind => containsSub filepath_lower ind) then "high"
  else if medium_risk_indicators.any (fun ind => containsSub filepath_lower ind) then "medium"
  else "low"

/-- Model of `IntegrityScanner._calculate_severity` (scanner.py lines 288-309). -/
def calculate_severity (changes : List ChangeRecord) : String :=
  if changes.isEmpty then "low"
  else
    let high_severity_count := (changes.filter (fun c => c.severity == "high")).length
    let medium_severity_count := (changes.filter (fun c => c.severity == "medium")).length
    if 3 ≤ high_severity_count ∨ 10 ≤ changes.length then "high"
    else if 1 ≤ high_severity_count ∨ 3 ≤ medium_severity_count then "medium"
    else "low"

/-- Model of `IntegrityScanner._compare_with_baseline` (scanner.py lines 200-246),
with the baseline snapshot `self.baselines[host_id]['snapshot']` passed
explicitly.  First pass over the current snapshot yields `new`/`modified`
records, second pass over the baseline yields `deleted` records. -/
def compare_with_baseline (baseline_snapshot current_snapshot : Snapshot) : List ChangeRecord :=
  (current_snapshot.filterMap (fun e =>
    match dictLookup baseline_snapshot e.1 with
    | none =>
        some { path := e.1, change := "new", severity := assess_file_risk e.1,
               hash := some e.2.hash }
    | some base_data =>
        if e.2.hash ≠ base_data.hash then
          some { path := e.1, change := "modified", severity := assess_file_risk e.1,
                 hash := some e.2.hash, previous_hash := some base_data.hash }
        else none)) ++
  (baseline_snapshot.filterMap (fun e =>
    if (dictLookup current_snapshot e.1).isNone then
      some { path := e.1, change := "deleted", severity := assess_file_risk e.1 }
    else none))

/-- The body of the inner `for file in files` loop (scanner.py lines
121-139): hash and stat the file and record it in the snapshot, counting
it; a stat raising the caught `PermissionError`/`OSError` skips the file. -/
def processFile (fs : FileSystem) (dir : String) (s : Snapshot × Nat) (file : String) :
    Snapshot × Nat :=
  let filepath := osJoin dir file
  let file_hash := calculate_file_hash fs filepath
  match fs.stat filepath with
  | none => s
  | some st =>
      (dictInsert s.1 filepath { hash := file_hash, size := st.1, modified := st.2 },
       s.2 + 1)

/-- The `for root, dirs, files in os.walk(scan_path)` loop (scanner.py
lines 116-142): before each directory the global budget is checked
(`if files_scanned >= 500: break`), then every file of the directory is
processed, then the budget is checked again. -/
def processEntries (fs : FileSystem) (s : Snapshot × Nat) : List WalkEntry → Snapshot × Nat
  | [] => s
  | entry :: rest =>
      if 500 ≤ s.2 then s
      else
        let s' := entry.files.foldl (processFile fs entry.dir) s
        if 500 ≤ s'.2 then s' else processEntries fs s' rest

/-- Accumulator of `_execute_scan`'s traversal phase: `current_snapshot`,
`files_scanned` and the `changes` list (which, during traversal, only
ever receives `path_not_found` records). -/
structure TravState where
  snapshot : Snapshot
  files_scanned : Nat
  changes : List ChangeRecord
  deriving DecidableEq, Repr

/-- The `path_not_found` record appended for a missing root
(scanner.py lines 107-111). -/
def pathNotFoundRecord (scan_path : String) : ChangeRecord :=
  { path := scan_path, change := "path_not_found", severity := "low" }

/-- The `for scan_path in scan_paths` loop (scanner.py lines 104-146):
a missing root contributes a `path_not_found` record and traversal
continues; an existing root is walked under the per-root
`except Exception: continue` (which, the walk being modelled as a pure
finite list, never changes the outcome of a completed iteration). -/
def scanRoots (fs : FileSystem) : List String → TravState → TravState
  | [], t => t
  | scan_path :: rest, t =>
      if fs.pathExists scan_path = false then
        scanRoots fs rest
          { t with changes := t.changes ++ [pathNotFoundRecord scan_path] }
      else
        let s := processEntries fs (t.snapshot, t.files_scanned) (fs.walk scan_path)
        scanRoots fs rest
          { snapshot := s.1, files_scanned := s.2, changes := t.changes }

/-- The fields `_execute_scan` writes back into the job record in its
single final `self.scans[job_id].update({...})` (scanner.py lines 166-173). -/
structure ScanUpdate where
  files_scanned : Nat
  changes : List ChangeRecord
  baseline_score : Nat
  severity : String
  completed_at : String
  deriving DecidableEq, Repr

/-- Model of `IntegrityScanner._execute_scan` (scanner.py lines 90-175) for an
iterable `scan_paths`: traverse the roots, then either diff against the
stored baseline (the diff output *replaces* the accumulated `changes`)
or create the host's first baseline, then score, and return the single
final job update together with the possibly extended baseline table. -/
def execute_scan (fs : FileSystem) (env : Env) (baselines : List (String × Baseline))
    (host_id : String) (scan_paths : List String) :
    ScanUpdate × List (String × Baseline) :=
  let t := scanRoots fs scan_paths { snapshot := [], files_scanned := 0, changes := [] }
  let step :
      List ChangeRecord × List (String × Baseline) :=
    match dictLookup baselines host_id with
    | some b => (compare_with_baseline b.snapshot t.snapshot, baselines)
    | none =>
        (t.changes,
         dictInsert baselines host_id
           { host_id := host_id, created_at := env.timestamp,
             snapshot := t.snapshot, file_count := t.snapshot.length })
  let changes := step.1
  let baseline_score := 100 - min (changes.length * 2) 30
  let severity := calculate_severity changes
  ({ files_scanned := t.files_scanned, changes := changes,
     baseline_score := baseline_score, severity := severity,
     completed_at := env.timestamp }, step.2)

/-- Applying `_execute_scan`'s final update to the job record created at
scan start. -/
def applyUpdate (j : ScanJob) (u : ScanUpdate) : ScanJob :=
  { j with status := "completed", files_scanned := u.files_scanned,
           changes := u.changes, baseline_score := u.baseline_score,
           severity := u.severity, completed_at := some u.completed_at }

/-- Model of `IntegrityScanner.start_scan` (scanner.py lines 38-88): substitute the
default paths for `None`, create the `running` job record, run
`_execute_scan` under the `try`, and on an escaping exception mark the job
`failed` with the exception message — touching no other job field. -/
def start_scan (fs : FileSystem) (env : Env) (st : ScannerState)
    (host_id : String) (arg : ScanPathsArg) : ScannerState × StartResult :=
  let job_id := env.job_id
  let mkJob := fun (stored : ScanPathsArg) =>
    ({ job_id := job_id, host := host_id, status := "running",
       timestamp := env.timestamp, scan_paths := stored,
       baseline_score := 100, changes := [], files_scanned := 0,
       severity := "low" } : ScanJob)
  match arg with
  | .invalid msg =>
      ({ scans := dictInsert st.scans job_id
           { mkJob (.invalid msg) with status := "failed", error := some msg },
         baselines := st.baselines },
       { job_id := job_id, status := "failed",
         message := s!"Scan initiated for {host_id}" })
  | .noPaths =>
      let r := execute_scan fs env st.baselines host_id default_scan_paths
      ({ scans := dictInsert st.scans job_id
           (applyUpdate (mkJob (.paths default_scan_paths)) r.1),
         baselines := r.2 },
       { job_id := job_id, status := "completed",
         message := s!"Scan initiated for {host_id}" })
  | .paths l =>
      let r := execute_scan fs env st.baselines host_id l
      ({ scans := dictInsert st.scans job_id (applyUpdate (mkJob (.paths l)) r.1),
         baselines := r.2 },
       { job_id := job_id, status := "completed",
         message := s!"Scan initiated for {host_id}" })

/-- Model of `IntegrityScanner.create_baseline` (scanner.py lines 352-369): starts a
scan with the default paths (which lazily creates the baseline when none
exists) and reports the job id. -/
def create_baseline (fs : FileSystem) (env : Env) (st : ScannerState)
    (host_id : String) : ScannerState × StartResult :=
  let r := start_scan fs env st host_id .noPaths
  (r.1,
   { job_id := r.2.job_id, status := "success",
     message := s!"Baseline creation initiated for {host_id}" })

/-- The snapshot/counter part of the traversal in isolation: `scanRoots`
restricted to the fields that existing roots touch.  Proven equal to the
corresponding projections of `scanRoots` below. -/
def scanSnapCore (fs : FileSystem) : List String → Snapshot × Nat → Snapshot × Nat
  | [], s => s
  | scan_path :: rest, s =>
      if fs.pathExists scan_path = false then scanSnapCore fs rest s
      else scanSnapCore fs rest (processEntries fs s (fs.walk scan_path))

/-- A file system on which nothing exists and nothing is readable. -/
def emptyFS : FileSystem :=
  { pathExists := fun _ => false, walk := fun _ => [],
    stat := fun _ => none, readFile := fun _ => none,
    sha256hex := fun _ => "" }

/-- A fixed environment for concrete runs. -/
def env0 : Env := { job_id := "scan-00000001", timestamp := "2026-01-01T00:00:00" }

/-- The scanner's state right after `__init__`: both tables empty. -/
def st0 : ScannerState := { scans := [], baselines := [] }

/-- A state in which host `WIN-SRV-01` already has a (here: empty) baseline. -/
def stWithBaseline : ScannerState :=
  { scans := [],
    baselines := [("WIN-SRV-01",
      { host_id := "WIN-SRV-01", created_at := "2025-12-31T00:00:00",
        snapshot := [], file_count := 0 })] }

/-- 501 distinct file names `"0" … "500"`. -/
def files501 : List String := (List.range 501).map (fun i => toString i)

/-- A file system exposing one directory that holds 501 readable files:
`os.walk` of any existing root yields a single `(dir, [], files)` triple. -/
def fs501 : FileSystem :=
  { pathExists := fun _ => true,
    walk := fun _ => [{ dir := "d", subdirs := [], files := files501 }],
    stat := fun _ => some (0, "2026-01-01T00:00:00"),
    readFile := fun _ => none,
    sha256hex := fun _ => "" }

/-- A change record of the given risk tier on a fixed path, for concrete
severity-aggregation runs. -/
def sampleChange (tier : String) : ChangeRecord :=
  { path := "C:\\x", change := "modified", severity := tier }

/-! ## Dictionary lemmas -/

theorem dictLookup_eq_none_of_contains_false {α : Type} (l : List (String × α)) (k : String)
    (h : dictContains l k = false) : dictLookup l k = none := by
  induction l with
  | nil => rfl
  | cons e rest ih =>
      simp only [dictContains, Bool.or_eq_false_iff, beq_eq_false_iff_ne, ne_eq] at h
      simp only [dictLookup, if_neg h.1]
      exact ih h.2

theorem dictLookup_map_replace {α : Type} (l : List (String × α)) (k : String) (v : α)
    (h : dictContains l k = true) :
    dictLookup (l.map (fun e => if e.1 = k then (k, v) else e)) k = some v := by
  induction l with
  | nil => simp [dictContains] at h
  | cons e rest ih =>
      by_cases hk : e.1 = k
      · simp [dictLookup, hk]
      · simp only [dictContains, Bool.or_eq_true, beq_iff_eq] at h
        rcases h with h | h
        · exact absurd h hk
        · simp only [List.map_cons, if_neg hk, dictLookup, if_neg hk]
          exact ih h

theorem dictLookup_insert_self {α : Type} (l : List (String × α)) (k : String) (v : α) :
    dictLookup (dictInsert l k v) k = some v := by
  unfold dictInsert
  by_cases h : dictContains l k = true
  · rw [if_pos h]
    exact dictLookup_map_replace l k v h
  · rw [if_neg h]
    have hn : dictLookup l k = none :=
      dictLookup_eq_none_of_contains_false l k (by simpa using h)
    induction l with
    | nil => simp [dictLookup]
    | cons e rest ih =>
        simp only [dictLookup] at hn ⊢
        by_cases hk : e.1 = k
        · rw [if_pos hk] at hn; cases hn
        · rw [if_neg hk] at hn ⊢
          exact ih (by
            intro hc
            exact h (by simp only [dictContains, hc, Bool.or_true])) hn

theorem dictLookup_insert_ne {α : Type} (l : List (String × α)) (k k' : String) (v : α)
    (h : k' ≠ k) : dictLookup (dictInsert l k v) k' = dictLookup l k' := by
  unfold dictInsert
  by_cases hc : dictContains l k = true
  · rw [if_pos hc]
    clear hc
    induction l with
    | nil => rfl
    | cons e rest ih =>
        by_cases hk : e.1 = k
        · simp only [List.map_cons, if_pos hk, dictLookup]
          rw [if_neg (fun hkk => h hkk.symm), if_neg (by rw [hk]; exact fun hkk => h hkk.symm)]
          exact ih
        · simp only [List.map_cons, if_neg hk, dictLookup]
          by_cases hk' : e.1 = k'
          · rw [if_pos hk', if_pos hk']
          · rw [if_neg hk', if_neg hk']
            exact ih
  · rw [if_neg hc]
    induction l with
    | nil =>
        simp only [List.nil_append, dictLookup]
        rw [if_neg (fun hkk : k = k' => h hkk.symm)]
    | cons e rest ih =>
        simp only [List.cons_append, dictLookup]
        by_cases hk' : e.1 = k'
        · rw [if_pos hk', if_pos hk']
        · rw [if_neg hk', if_neg hk']
          exact ih (by
            intro hcc
            exact hc (by simp only [dictContains, hcc, Bool.or_true]))

theorem mem_iff_dictLookup {α : Type} (l : List (String × α)) (k : String) (v : α)
    (hnd : (l.map Prod.fst).Nodup) : (k, v) ∈ l ↔ dictLookup l k = some v := by
  induction l with
  | nil => simp [dictLookup]
  | cons e rest ih =>
      obtain ⟨e1, e2⟩ := e
      simp only [List.map_cons, List.nodup_cons] at hnd
      by_cases hk : e1 = k
      · subst hk
        simp only [dictLookup, eq_self_iff_true, if_true, List.mem_cons, Prod.mk.injEq,
          Option.some.injEq, true_and]
        constructor
        · rintro (rfl | hm)
          · rfl
          · exact absurd (List.mem_map_of_mem Prod.fst hm) hnd.1
        · rintro rfl
          exact Or.inl rfl
      · simp only [dictLookup, if_neg hk, List.mem_cons, Prod.mk.injEq]
        rw [← ih hnd.2]
        constructor
        · rintro (⟨h1, -⟩ | hm)
          · exact absurd h1.symm hk
          · exact hm
        · exact Or.inr

/-! ## Hasher lemmas -/

theorem readChunks_flatten (bytes : List Nat) : (readChunks bytes).flatten = bytes := by
  induction bytes using readChunks.induct with
  | case1 =>
      simp [readChunks]
  | case2 bytes h ih =>
      rw [readChunks, dif_neg h, List.flatten_cons, ih]
      exact List.take_append_drop 8192 bytes

/-! ## Traversal lemmas -/

theorem scanRoots_eq (fs : FileSystem) :
    ∀ (ps : List String) (t : TravState),
    scanRoots fs ps t =
      { snapshot := (scanSnapCore fs ps (t.snapshot, t.files_scanned)).1,
        files_scanned := (scanSnapCore fs ps (t.snapshot, t.files_scanned)).2,
        changes := t.changes ++
          (ps.filter (fun p => !fs.pathExists p)).map pathNotFoundRecord }
  | [], t => by simp [scanRoots, scanSnapCore]
  | p :: rest, t => by
      by_cases h : fs.pathExists p = false
      · rw [scanRoots, if_pos h, scanRoots_eq fs rest]
        simp [scanSnapCore, h, List.filter_cons]
      · rw [scanRoots, if_neg h, scanRoots_eq fs rest]
        simp only [Bool.not_eq_false] at h
        simp [scanSnapCore, h, List.filter_cons]

theorem scanSnapCore_filter (fs : FileSystem) :
    ∀ (ps : List String) (s : Snapshot × Nat),
    scanSnapCore fs ps s = scanSnapCore fs (ps.filter (fun p => fs.pathExists p)) s
  | [], s => rfl
  | p :: rest, s => by
      by_cases h : fs.pathExists p = false
      · rw [scanSnapCore, if_pos h, List.filter_cons, if_neg (by simp [h])]
        exact scanSnapCore_filter fs rest s
      · rw [scanSnapCore, if_neg h, List.filter_cons,
          if_pos (by simpa using Bool.not_eq_false _ ▸ h), scanSnapCore, if_neg h]
        exact scanSnapCore_filter fs rest _

theorem processFile_count_le (fs : FileSystem) (d : String) (s : Snapshot × Nat)
    (f : String) : (processFile fs d s f).2 ≤ s.2 + 1 := by
  unfold processFile
  cases hst : fs.stat (osJoin d f) <;> simp [hst]

theorem processFile_count_ge (fs : FileSystem) (d : String) (s : Snapshot × Nat)
    (f : String) : s.2 ≤ (processFile fs d s f).2 := by
  unfold processFile
  cases hst : fs.stat (osJoin d f) <;> simp [hst]

theorem foldl_processFile_count_le (fs : FileSystem) (d : String) :
    ∀ (files : List String) (s : Snapshot × Nat),
    (files.foldl (processFile fs d) s).2 ≤ s.2 + files.length
  | [], s => by simp
  | f :: rest, s => by
      rw [List.foldl_cons]
      have h1 := processFile_count_le fs d s f
      have h2 := foldl_processFile_count_le fs d rest (processFile fs d s f)
      simp only [List.length_cons]
      omega

theorem processEntries_of_ge (fs : FileSystem) (es : List WalkEntry)
    (s : Snapshot × Nat) (h : 500 ≤ s.2) : processEntries fs s es = s := by
  cases es with
  | nil => rfl
  | cons e rest => rw [processEntries, if_pos h]

theorem processEntries_count_le (fs : FileSystem) (k : Nat) :
    ∀ (es : List WalkEntry) (s : Snapshot × Nat),
    (∀ e ∈ es, e.files.length ≤ k) → s.2 ≤ 499 + k →
    (processEntries fs s es).2 ≤ 499 + k
  | [], s, _, hs => hs
  | e :: rest, s, hes, hs => by
      rw [processEntries]
      by_cases h5 : 500 ≤ s.2
      · rw [if_pos h5]
        exact hs
      · rw [if_neg h5]
        have hlen : e.files.length ≤ k := hes e (List.mem_cons_self e rest)
        have hfold := foldl_processFile_count_le fs e.dir e.files s
        have hbound : (e.files.foldl (processFile fs e.dir) s).2 ≤ 499 + k := by omega
        by_cases h5' : 500 ≤ (e.files.foldl (processFile fs e.dir) s).2
        · rw [if_pos h5']
          exact hbound
        · rw [if_neg h5']
          exact processEntries_count_le fs k rest _
            (fun e' he' => hes e' (List.mem_cons_of_mem e he')) hbound

theorem scanSnapCore_count_le (fs : FileSystem) (k : Nat) :
    ∀ (ps : List String) (s : Snapshot × Nat),
    (∀ p ∈ ps, ∀ e ∈ fs.walk p, e.files.length ≤ k) → s.2 ≤ 499 + k →
    (scanSnapCore fs ps s).2 ≤ 499 + k
  | [], _, _, hs => hs
  | p :: rest, s, hps, hs => by
      rw [scanSnapCore]
      by_cases h : fs.pathExists p = false
      · rw [if_pos h]
        exact scanSnapCore_count_le fs k rest s
          (fun p' hp' => hps p' (List.mem_cons_of_mem p hp')) hs
      · rw [if_neg h]
        exact scanSnapCore_count_le fs k rest _
          (fun p' hp' => hps p' (List.mem_cons_of_mem p hp'))
          (processEntries_count_le fs k (fs.walk p) s
            (hps p (List.mem_cons_self p rest)) hs)

theorem dictInsert_length_le {α : Type} (l : List (String × α)) (k : String) (v : α) :
    (dictInsert l k v).length ≤ l.length + 1 := by
  unfold dictInsert
  by_cases h : dictContains l k = true
  · rw [if_pos h, List.length_map]
    omega
  · rw [if_neg h, List.length_append]
    simp

theorem processFile_snap_le (fs : FileSystem) (d : String) (s : Snapshot × Nat)
    (f : String) (h : s.1.length ≤ s.2) :
    (processFile fs d s f).1.length ≤ (processFile fs d s f).2 := by
  unfold processFile
  cases hst : fs.stat (osJoin d f) with
  | none => simpa [hst] using h
  | some st =>
      simp only [hst]
      have hins := dictInsert_length_le s.1 (osJoin d f)
        { hash := calculate_file_hash fs (osJoin d f), size := st.1, modified := st.2 }
      omega

theorem foldl_processFile_snap_le (fs : FileSystem) (d : String) :
    ∀ (files : List String) (s : Snapshot × Nat), s.1.length ≤ s.2 →
    (files.foldl (processFile fs d) s).1.length ≤ (files.foldl (processFile fs d) s).2
  | [], _, h => h
  | f :: rest, s, h => by
      rw [List.foldl_cons]
      exact foldl_processFile_snap_le fs d rest _ (processFile_snap_le fs d s f h)

theorem processEntries_snap_le (fs : FileSystem) :
    ∀ (es : List WalkEntry) (s : Snapshot × Nat), s.1.length ≤ s.2 →
    (processEntries fs s es).1.length ≤ (processEntries fs s es).2
  | [], _, h => h
  | e :: rest, s, h => by
      rw [processEntries]
      by_cases h5 : 500 ≤ s.2
      · rw [if_pos h5]
        exact h
      · rw [if_neg h5]
        have h' := foldl_processFile_snap_le fs e.dir e.files s h
        by_cases h5' : 500 ≤ (e.files.foldl (processFile fs e.dir) s).2
        · rw [if_pos h5']
          exact h'
        · rw [if_neg h5']
          exact processEntries_snap_le fs rest _ h'

theorem scanSnapCore_snap_le (fs : FileSystem) :
    ∀ (ps : List String) (s : Snapshot × Nat), s.1.length ≤ s.2 →
    (scanSnapCore fs ps s).1.length ≤ (scanSnapCore fs ps s).2
  | [], _, h => h
  | p :: rest, s, h => by
      rw [scanSnapCore]
      by_cases hp : fs.pathExists p = false
      · rw [if_pos hp]
        exact scanSnapCore_snap_le fs rest s h
      · rw [if_neg hp]
        exact scanSnapCore_snap_le fs rest _ (processEntries_snap_le fs (fs.walk p) s h)

/-! ## Diff-engine lemmas -/

theorem dictLookup_isSome_of_mem {α : Type} (l : List (String × α)) (k : String) (v : α)
    (h : (k, v) ∈ l) : (dictLookup l k).isSome := by
  induction l with
  | nil => cases h
  | cons e rest ih =>
      rw [dictLookup]
      by_cases hk : e.1 = k
      · rw [if_pos hk]
        rfl
      · rw [if_neg hk]
        rcases List.mem_cons.mp h with rfl | hm
        · exact absurd rfl hk
        · exact ih hm

theorem compare_change_kinds (base cur : Snapshot) (r : ChangeRecord)
    (h : r ∈ compare_with_baseline base cur) :
    r.change = "new" ∨ r.change = "modified" ∨ r.change = "deleted" := by
  unfold compare_with_baseline at h
  rcases List.mem_append.mp h with h | h
  · rcases List.mem_filterMap.mp h with ⟨e, _, he⟩
    split at he
    · cases he
      left
      rfl
    · split at he
      · cases he
        right
        left
        rfl
      · cases he
  · rcases List.mem_filterMap.mp h with ⟨e, _, he⟩
    split at he
    · cases he
      right
      right
      rfl
    · cases he

theorem compare_self (s : Snapshot) (hnd : (s.map Prod.fst).Nodup) :
    compare_with_baseline s s = [] := by
  unfold compare_with_baseline
  rw [List.append_eq_nil]
  constructor
  · rw [List.filterMap_eq_nil_iff]
    rintro ⟨p, d⟩ hm
    have hl : dictLookup s p = some d := (mem_iff_dictLookup s p d hnd).mp hm
    simp [hl]
  · rw [List.filterMap_eq_nil_iff]
    rintro ⟨p, d⟩ hm
    have hs := dictLookup_isSome_of_mem s p d hm
    cases hl : dictLookup s p with
    | none =>
        rw [hl] at hs
        cases hs
    | some d' => simp [hl]

theorem mem_compare_iff (base cur : Snapshot)
    (hb : (base.map Prod.fst).Nodup) (hc : (cur.map Prod.fst).Nodup) (r : ChangeRecord) :
    r ∈ compare_with_baseline base cur ↔
      ((∃ cd, dictLookup cur r.path = some cd ∧ dictLookup base r.path = none ∧
          r = { path := r.path, change := "new", severity := assess_file_risk r.path,
                hash := some cd.hash }) ∨
       (∃ cd bd, dictLookup cur r.path = some cd ∧ dictLookup base r.path = some bd ∧
          cd.hash ≠ bd.hash ∧
          r = { path := r.path, change := "modified", severity := assess_file_risk r.path,
                hash := some cd.hash, previous_hash := some bd.hash }) ∨
       (∃ bd, dictLookup base r.path = some bd ∧ dictLookup cur r.path = none ∧
          r = { path := r.path, change := "deleted",
                severity := assess_file_risk r.path })) := by
  constructor
  · intro h
    unfold compare_with_baseline at h
    rcases List.mem_append.mp h with h | h
    · rcases List.mem_filterMap.mp h with ⟨⟨p, d⟩, hm, he⟩
      have hcur : dictLookup cur p = some d := (mem_iff_dictLookup cur p d hc).mp hm
      cases hl : dictLookup base p with
      | none =>
          simp only [hl] at he
          cases he
          exact Or.inl ⟨d, hcur, hl, rfl⟩
      | some bd =>
          simp only [hl] at he
          by_cases hh : d.hash ≠ bd.hash
          · rw [if_pos hh] at he
            cases he
            exact Or.inr (Or.inl ⟨d, bd, hcur, hl, hh, rfl⟩)
          · rw [if_neg hh] at he
            cases he
    · rcases List.mem_filterMap.mp h with ⟨⟨p, d⟩, hm, he⟩
      have hbase : dictLookup base p = some d := (mem_iff_dictLookup base p d hb).mp hm
      cases hn : dictLookup cur p with
      | none =>
          simp only [hn, Option.isNone_none, if_true] at he
          cases he
          exact Or.inr (Or.inr ⟨d, hbase, hn, rfl⟩)
      | some cd =>
          simp [hn] at he
  · intro h
    unfold compare_with_baseline
    apply List.mem_append.mpr
    rcases h with ⟨cd, h1, h2, h3⟩ | ⟨cd, bd, h1, h2, h3, h4⟩ | ⟨bd, h1, h2, h3⟩
    · left
      apply List.mem_filterMap.mpr
      refine ⟨(r.path, cd), (mem_iff_dictLookup cur r.path cd hc).mpr h1, ?_⟩
      simp only [h2]
      exact congrArg some h3.symm
    · left
      apply List.mem_filterMap.mpr
      refine ⟨(r.path, cd), (mem_iff_dictLookup cur r.path cd hc).mpr h1, ?_⟩
      simp only [h2]
      rw [if_pos h3]
      exact congrArg some h4.symm
    · right
      apply List.mem_filterMap.mpr
      refine ⟨(r.path, bd), (mem_iff_dictLookup base r.path bd hb).mpr h1, ?_⟩
      simp only [h2, Option.isNone_none, if_true]
      exact congrArg some h3.symm

/-! ## Scan-execution lemmas -/

theorem foldl_processFile_count_allsome (fs : FileSystem) (d : String)
    (hall : ∀ f : String, (fs.stat (osJoin d f)).isSome) :
    ∀ (files : List String) (s : Snapshot × Nat),
    (files.foldl (processFile fs d) s).2 = s.2 + files.length
  | [], s => by simp
  | f :: rest, s => by
      rw [List.foldl_cons]
      have hstep : (processFile fs d s f).2 = s.2 + 1 := by
        unfold processFile
        cases hst : fs.stat (osJoin d f) with
        | none =>
            have := hall f
            rw [hst] at this
            cases this
        | some st => simp [hst]
      rw [foldl_processFile_count_allsome fs d hall rest (processFile fs d s f), hstep]
      simp only [List.length_cons]
      omega

theorem processEntries_single (fs : FileSystem) (e : WalkEntry) (s : Snapshot × Nat)
    (h : ¬ 500 ≤ s.2) :
    (processEntries fs s [e]).2 = (e.files.foldl (processFile fs e.dir) s).2 := by
  simp only [processEntries]
  rw [if_neg h]
  by_cases h5 : 500 ≤ (e.files.foldl (processFile fs e.dir) s).2
  · rw [if_pos h5]
  · rw [if_neg h5]

theorem execute_scan_changes_none (fs : FileSystem) (env : Env)
    (baselines : List (String × Baseline)) (host : String) (l : List String)
    (h : dictLookup baselines host = none) :
    (execute_scan fs env baselines host l).1.changes =
      (scanRoots fs l { snapshot := [], files_scanned := 0, changes := [] }).changes := by
  unfold execute_scan
  simp only [h]

theorem execute_scan_baselines_none (fs : FileSystem) (env : Env)
    (baselines : List (String × Baseline)) (host : String) (l : List String)
    (h : dictLookup baselines host = none) :
    (execute_scan fs env baselines host l).2 =
      dictInsert baselines host
        { host_id := host, created_at := env.timestamp,
          snapshot :=
            (scanRoots fs l { snapshot := [], files_scanned := 0, changes := [] }).snapshot,
          file_count :=
            (scanRoots fs l
              { snapshot := [], files_scanned := 0, changes := [] }).snapshot.length } := by
  unfold execute_scan
  simp only [h]

theorem execute_scan_changes_some (fs : FileSystem) (env : Env)
    (baselines : List (String × Baseline)) (host : String) (l : List String)
    (b : Baseline) (h : dictLookup baselines host = some b) :
    (execute_scan fs env baselines host l).1.changes =
      compare_with_baseline b.snapshot
        (scanRoots fs l { snapshot := [], files_scanned := 0, changes := [] }).snapshot := by
  unfold execute_scan
  simp only [h]

theorem execute_scan_baselines_some (fs : FileSystem) (env : Env)
    (baselines : List (String × Baseline)) (host : String) (l : List String)
    (b : Baseline) (h : dictLookup baselines host = some b) :
    (execute_scan fs env baselines host l).2 = baselines := by
  unfold execute_scan
  simp only [h]

theorem start_scan_paths_job (fs : FileSystem) (env : Env) (st : ScannerState)
    (host : String) (l : List String) :
    dictLookup (start_scan fs env st host (.paths l)).1.scans env.job_id =
      some (applyUpdate
        { job_id := env.job_id, host := host, status := "running",
          timestamp := env.timestamp, scan_paths := .paths l,
          baseline_score := 100, changes := [], files_scanned := 0,
          severity := "low" }
        (execute_scan fs env st.baselines host l).1) := by
  simp only [start_scan]
  exact dictLookup_insert_self _ _ _

theorem start_scan_paths_baselines (fs : FileSystem) (env : Env) (st : ScannerState)
    (host : String) (l : List String) :
    (start_scan fs env st host (.paths l)).1.baselines =
      (execute_scan fs env st.baselines host l).2 := rfl

/-! ## Claim theorems -/

/-- C4: For every list of change records the overall severity is "high" iff at
least 3 changes have risk tier "high" or the total change count is ≥ 10;
otherwise it is "medium" iff at least 1 change is "high" or at least 3 changes
are "medium"; otherwise it is "low" (in particular the empty list yields
"low"); consequently 10 all-"low" changes yield "high" and 2 "high" changes
among 7 total yield "medium". -/
theorem C4_calculate_severity_thresholds (changes : List ChangeRecord) :
    (calculate_severity changes = "high" ↔
      (3 ≤ (changes.filter (fun c => c.severity == "high")).length ∨
       10 ≤ changes.length)) ∧
    (calculate_severity changes = "medium" ↔
      (¬(3 ≤ (changes.filter (fun c => c.severity == "high")).length ∨
         10 ≤ changes.length) ∧
       (1 ≤ (changes.filter (fun c => c.severity == "high")).length ∨
        3 ≤ (changes.filter (fun c => c.severity == "medium")).length))) ∧
    (calculate_severity changes = "low" ↔
      (¬(3 ≤ (changes.filter (fun c => c.severity == "high")).length ∨
         10 ≤ changes.length) ∧
       ¬(1 ≤ (changes.filter (fun c => c.severity == "high")).length ∨
         3 ≤ (changes.filter (fun c => c.severity == "medium")).length))) ∧
    (changes.length = 10 → calculate_severity changes = "high") ∧
    (changes.length = 7 →
      (changes.filter (fun c => c.severity == "high")).length = 2 →
      calculate_severity changes = "medium") := by
  by_cases hemp : changes.isEmpty = true
  · have h0 : changes = [] := List.isEmpty_iff.mp hemp
    subst h0
    refine ⟨?_, ?_, ?_, ?_, ?_⟩ <;> simp [calculate_severity]
  · unfold calculate_severity
    rw [if_neg hemp]
    by_cases h1 : 3 ≤ (changes.filter (fun c => c.severity == "high")).length ∨
        10 ≤ changes.length
    · rw [if_pos h1]
      refine ⟨by simp [h1], by simp [h1], by simp [h1], fun _ => rfl, ?_⟩
      intro h10 hhc
      exact absurd h1 (by omega)
    · rw [if_neg h1]
      by_cases h2 : 1 ≤ (changes.filter (fun c => c.severity == "high")).length ∨
          3 ≤ (changes.filter (fun c => c.severity == "medium")).length
      · rw [if_pos h2]
        refine ⟨by simp [h1, h2], by simp [h1, h2], by simp [h1, h2], ?_, fun _ _ => rfl⟩
        intro h10
        exact absurd (Or.inr (by omega)) h1
      · rw [if_neg h2]
        refine ⟨by simp [h1, h2], by simp [h1, h2], by simp [h1, h2], ?_, ?_⟩
        · intro h10
          exact absurd (Or.inr (by omega)) h1
        · intro h7 hhc
          exact absurd (Or.inl (by omega)) h2

/-- C4 witness: the severity thresholds applied at concrete change lists —
10 all-"low" records aggregate to "high" and an empty list to "low". -/
theorem C4_witness :
    calculate_severity (List.replicate 10 (sampleChange "low")) = "high" ∧
    calculate_severity [] = "low" := by
  constructor
  · exact (C4_calculate_severity_thresholds
      (List.replicate 10 (sampleChange "low"))).2.2.2.1 (by decide)
  · exact (C4_calculate_severity_thresholds []).2.2.1.mpr (by decide)

/-- C5: every completed scan job's baseline score equals
`100 - min(changeCount * 2, 30)`; the scoring formula always lies in
[70, 100], is monotonically non-increasing in the change count, and reaches
its floor 70 at 15 or more changes. -/
theorem C5_baseline_score (fs : FileSystem) (env : Env) (st : ScannerState)
    (host_id : String) (arg : ScanPathsArg) (j : ScanJob)
    (hj : dictLookup (start_scan fs env st host_id arg).1.scans env.job_id = some j)
    (hstatus : j.status = "completed") :
    j.baseline_score = 100 - min (j.changes.length * 2) 30 ∧
    (∀ n : Nat, 70 ≤ 100 - min (n * 2) 30 ∧ 100 - min (n * 2) 30 ≤ 100) ∧
    (∀ m n : Nat, m ≤ n → 100 - min (n * 2) 30 ≤ 100 - min (m * 2) 30) ∧
    (∀ n : Nat, 15 ≤ n → 100 - min (n * 2) 30 = 70) := by
  refine ⟨?_, fun n => ⟨by omega, by omega⟩, fun m n h => by omega, fun n h => by omega⟩
  cases arg with
  | invalid msg =>
      simp only [start_scan] at hj
      rw [dictLookup_insert_self, Option.some.injEq] at hj
      rw [← hj] at hstatus
      have hbad : ("failed" : String) = "completed" := hstatus
      exact absurd hbad (by decide)
  | noPaths =>
      simp only [start_scan] at hj
      rw [dictLookup_insert_self, Option.some.injEq] at hj
      rw [← hj]
      rfl
  | paths l =>
      simp only [start_scan] at hj
      rw [dictLookup_insert_self, Option.some.injEq] at hj
      rw [← hj]
      rfl

/-- C5 witness: a concrete completed scan (empty file system, one missing
root) whose stored job satisfies the scoring formula. -/
theorem C5_witness :
    ∃ j, dictLookup (start_scan emptyFS env0 st0 "WIN-SRV-01"
          (.paths ["C:\\missing"])).1.scans env0.job_id = some j ∧
      j.baseline_score = 100 - min (j.changes.length * 2) 30 := by
  refine ⟨_, rfl, ?_⟩
  exact (C5_baseline_score emptyFS env0 st0 "WIN-SRV-01" (.paths ["C:\\missing"])
    _ rfl (by decide)).1

/-- C6: risk classification is a pure function of the path text that only
depends on the lowercased path (so two paths differing only in letter case
classify identically), the high-risk fragment set is consulted before the
medium-risk set (a path matching any high-risk fragment classifies "high"
regardless of medium-risk matches), and a path matching neither set
classifies "low". -/
theorem C6_assess_file_risk_properties :
    (∀ p q : String, strLower p = strLower q →
       assess_file_risk p = assess_file_risk q) ∧
    (∀ p : String,
       high_risk_indicators.any (fun ind => containsSub (strLower p) ind) = true →
       assess_file_risk p = "high") ∧
    (∀ p : String,
       high_risk_indicators.any (fun ind => containsSub (strLower p) ind) = false →
       medium_risk_indicators.any (fun ind => containsSub (strLower p) ind) = false →
       assess_file_risk p = "low") := by
  refine ⟨?_, ?_, ?_⟩
  · intro p q h
    unfold assess_file_risk
    rw [h]
  · intro p h
    unfold assess_file_risk
    rw [if_pos h]
  · intro p h1 h2
    unfold assess_file_risk
    rw [if_neg (by simp [h1]), if_neg (by simp [h2])]

/-- C6 witness: the spec's example paths — a `Temp` path and its upper-case
variant both classify "high" (case-insensitivity plus high-before-medium
even though `users\` also matches). -/
theorem C6_witness :
    assess_file_risk "C:\\Users\\X\\Temp\\payload.exe" = "high" ∧
    assess_file_risk "C:\\USERS\\X\\TEMP\\PAYLOAD.EXE" = "high" := by
  constructor
  · exact C6_assess_file_risk_properties.2.1 "C:\\Users\\X\\Temp\\payload.exe" (by decide)
  · exact C6_assess_file_risk_properties.2.1 "C:\\USERS\\X\\TEMP\\PAYLOAD.EXE" (by decide)

/-- C7: the hasher either returns the digest of the file's contents (read in
8 KiB chunks, whose concatenation is the full content) or, on any read
failure, the sentinel "hash_failed"; being a total function it never raises
to its caller. -/
theorem C7_calculate_file_hash_total (fs : FileSystem) (filepath : String) :
    (∃ bytes, fs.readFile filepath = some bytes ∧
       calculate_file_hash fs filepath = fs.sha256hex bytes) ∨
    (fs.readFile filepath = none ∧
       calculate_file_hash fs filepath = "hash_failed") := by
  unfold calculate_file_hash
  cases h : fs.readFile filepath with
  | none => exact Or.inr ⟨rfl, rfl⟩
  | some bytes =>
      left
      exact ⟨bytes, rfl, congrArg fs.sha256hex (readChunks_flatten bytes)⟩

/-- C1 counterexample: a first scan (no stored baseline) over a single
non-existent root completes with a `path_not_found` change, score 98 — not
the empty change list and score 100 the claim asserts for arbitrary scan
paths. -/
theorem C1_counterexample :
    ∃ j, dictLookup (start_scan emptyFS env0 st0 "WIN-SRV-01"
        (.paths ["C:\\missing"])).1.scans env0.job_id = some j ∧
      j.status = "completed" ∧
      j.changes = [pathNotFoundRecord "C:\\missing"] ∧
      ¬(j.changes = [] ∧ j.baseline_score = 100) ∧
      j.baseline_score = 98 := by
  refine ⟨_, start_scan_paths_job emptyFS env0 st0 "WIN-SRV-01" ["C:\\missing"],
    ?_, ?_, ?_, ?_⟩ <;> decide

/-- C1 amended: for a host with no stored baseline, start_scan creates a
Baseline for it (holding the traversal snapshot and its size as file count)
and finalizes the job as completed with changes consisting exactly of the
`path_not_found` records of the non-existent supplied roots; when every
supplied root exists this gives the empty change list, score 100 and
severity "low". -/
theorem C1_first_scan_amended (fs : FileSystem) (env : Env) (st : ScannerState)
    (host : String) (l : List String)
    (hb : dictLookup st.baselines host = none) :
    ∃ j, dictLookup (start_scan fs env st host (.paths l)).1.scans env.job_id = some j ∧
      j.status = "completed" ∧
      dictLookup (start_scan fs env st host (.paths l)).1.baselines host =
        some { host_id := host, created_at := env.timestamp,
               snapshot := (scanRoots fs l
                 { snapshot := [], files_scanned := 0, changes := [] }).snapshot,
               file_count := (scanRoots fs l
                 { snapshot := [], files_scanned := 0, changes := [] }).snapshot.length } ∧
      j.changes = (l.filter (fun p => !fs.pathExists p)).map pathNotFoundRecord ∧
      ((∀ p ∈ l, fs.pathExists p = true) →
        j.changes = [] ∧ j.baseline_score = 100 ∧ j.severity = "low") := by
  have hchg : (execute_scan fs env st.baselines host l).1.changes =
      (l.filter (fun p => !fs.pathExists p)).map pathNotFoundRecord := by
    rw [execute_scan_changes_none fs env st.baselines host l hb, scanRoots_eq]
    simp
  refine ⟨_, start_scan_paths_job fs env st host l, rfl, ?_, hchg, ?_⟩
  · rw [start_scan_paths_baselines, execute_scan_baselines_none fs env st.baselines host l hb]
    exact dictLookup_insert_self _ _ _
  · intro hall
    have hfil : l.filter (fun p => !fs.pathExists p) = [] := by
      rw [List.filter_eq_nil_iff]
      intro p hp
      simp [hall p hp]
    have hempty : (execute_scan fs env st.baselines host l).1.changes = [] := by
      rw [hchg, hfil]
      rfl
    refine ⟨hempty, ?_, ?_⟩
    · show 100 - min ((execute_scan fs env st.baselines host l).1.changes.length * 2) 30 = 100
      rw [hempty]
      rfl
    · show calculate_severity (execute_scan fs env st.baselines host l).1.changes = "low"
      rw [hempty]
      rfl

/-- C1 witness: a first scan over two existing (empty) roots creates the
baseline and finalizes with empty changes, score 100 and severity "low". -/
theorem C1_witness :
    ∃ j, dictLookup (start_scan fs501 env0 st0 "WIN-A" (.paths [])).1.scans
        env0.job_id = some j ∧
      j.changes = [] ∧ j.baseline_score = 100 ∧ j.severity = "low" := by
  obtain ⟨j, hj, -, -, -, hall⟩ :=
    C1_first_scan_amended fs501 env0 st0 "WIN-A" [] rfl
  obtain ⟨h1, h2, h3⟩ := hall (by intro p hp; cases hp)
  exact ⟨j, hj, h1, h2, h3⟩

/-- C2 counterexample: a host with an existing baseline scanned over a single
non-existent root — the completed job's changes contain no `path_not_found`
record at all (the diff output replaced the traversal's records), against
the claim's "holds both when a baseline already exists and when it does
not". -/
theorem C2_counterexample :
    ∃ j, dictLookup (start_scan emptyFS env0 stWithBaseline "WIN-SRV-01"
        (.paths ["C:\\missing"])).1.scans env0.job_id = some j ∧
      j.status = "completed" ∧ j.changes = [] ∧
      pathNotFoundRecord "C:\\missing" ∉ j.changes := by
  refine ⟨_, start_scan_paths_job emptyFS env0 stWithBaseline "WIN-SRV-01" ["C:\\missing"],
    ?_, ?_, ?_⟩ <;> decide

/-- C2 amended: non-existent roots never fail the job and traversal
continues — when no baseline exists for the host, every non-existent root
appears in the completed job's changes as a `path_not_found`/"low" record;
when a baseline exists the job still completes but the diff output replaces
the accumulated records, so the changes contain only new/modified/deleted
kinds and no `path_not_found` record; in both cases fingerprinting is
exactly that of the existing roots alone. -/
theorem C2_missing_roots_amended (fs : FileSystem) (env : Env) (st : ScannerState)
    (host : String) (l : List String) :
    (dictLookup st.baselines host = none →
      ∃ j, dictLookup (start_scan fs env st host (.paths l)).1.scans env.job_id = some j ∧
        j.status = "completed" ∧
        ∀ p ∈ l, fs.pathExists p = false → pathNotFoundRecord p ∈ j.changes) ∧
    (∀ b : Baseline, dictLookup st.baselines host = some b →
      ∃ j, dictLookup (start_scan fs env st host (.paths l)).1.scans env.job_id = some j ∧
        j.status = "completed" ∧
        j.changes = compare_with_baseline b.snapshot
          (scanRoots fs l { snapshot := [], files_scanned := 0, changes := [] }).snapshot ∧
        ∀ r ∈ j.changes, r.change ≠ "path_not_found") ∧
    (∀ s : Snapshot × Nat,
      scanSnapCore fs l s = scanSnapCore fs (l.filter (fun p => fs.pathExists p)) s) := by
  refine ⟨?_, ?_, scanSnapCore_filter fs l⟩
  · intro hb
    refine ⟨_, start_scan_paths_job fs env st host l, rfl, ?_⟩
    intro p hp hpe
    show pathNotFoundRecord p ∈ (execute_scan fs env st.baselines host l).1.changes
    rw [execute_scan_changes_none fs env st.baselines host l hb, scanRoots_eq]
    simp only [List.nil_append]
    apply List.mem_map_of_mem
    rw [List.mem_filter]
    exact ⟨hp, by simp [hpe]⟩
  · intro b hb
    refine ⟨_, start_scan_paths_job fs env st host l, rfl,
      execute_scan_changes_some fs env st.baselines host l b hb, ?_⟩
    intro r hr
    replace hr : r ∈ (execute_scan fs env st.baselines host l).1.changes := hr
    rw [execute_scan_changes_some fs env st.baselines host l b hb] at hr
    rcases compare_change_kinds _ _ r hr with h | h | h <;> rw [h] <;> decide

/-- C2 witness: the amended behavior at concrete states — the first-scan
case surfaces the missing root as a `path_not_found` record, the
existing-baseline case yields changes free of `path_not_found` records. -/
theorem C2_witness :
    (∃ j, dictLookup (start_scan emptyFS env0 st0 "WIN-SRV-01"
          (.paths ["C:\\missing"])).1.scans env0.job_id = some j ∧
       pathNotFoundRecord "C:\\missing" ∈ j.changes) ∧
    (∃ j, dictLookup (start_scan emptyFS env0 stWithBaseline "WIN-SRV-01"
          (.paths ["C:\\missing"])).1.scans env0.job_id = some j ∧
       ∀ r ∈ j.changes, r.change ≠ "path_not_found") := by
  constructor
  · obtain ⟨j, hj, -, hall⟩ :=
      (C2_missing_roots_amended emptyFS env0 st0 "WIN-SRV-01" ["C:\\missing"]).1 rfl
    exact ⟨j, hj, hall "C:\\missing" (by decide) (by decide)⟩
  · obtain ⟨j, hj, -, -, hnone⟩ :=
      (C2_missing_roots_amended emptyFS env0 stWithBaseline "WIN-SRV-01"
        ["C:\\missing"]).2.1 _ rfl
    exact ⟨j, hj, hnone⟩

/-- C3 counterexample: the budget check only runs at directory boundaries,
so a single directory holding 501 readable files yields a completed job
with `files_scanned = 501 > 500`, refuting the claimed hard 500 bound. -/
theorem C3_counterexample :
    ∃ j, dictLookup (start_scan fs501 env0 st0 "WIN-SRV-01"
        (.paths ["C:\\data"])).1.scans env0.job_id = some j ∧
      j.status = "completed" ∧ j.files_scanned = 501 ∧ 500 < j.files_scanned := by
  have hfold : ((files501.foldl (processFile fs501 "d") (([] : Snapshot), 0)).2 = 501) := by
    rw [foldl_processFile_count_allsome fs501 "d" (fun f => rfl) files501
      (([] : Snapshot), 0)]
    simp only [files501, List.length_map, List.length_range, Nat.zero_add]
  have hpe : (processEntries fs501 (([] : Snapshot), 0)
      [{ dir := "d", subdirs := [], files := files501 }]).2 = 501 := by
    rw [processEntries_single fs501 _ _ (by decide)]
    exact hfold
  have hcore : (scanSnapCore fs501 ["C:\\data"] (([] : Snapshot), 0)).2 = 501 := by
    simp only [scanSnapCore]
    rw [if_neg (show ¬(fs501.pathExists "C:\\data" = false) by decide)]
    exact hpe
  have hcount : (scanRoots fs501 ["C:\\data"]
      { snapshot := [], files_scanned := 0, changes := [] }).files_scanned = 501 := by
    rw [scanRoots_eq]
    exact hcore
  refine ⟨_, start_scan_paths_job fs501 env0 st0 "WIN-SRV-01" ["C:\\data"],
    rfl, hcount, ?_⟩
  show 500 < (scanRoots fs501 ["C:\\data"]
      { snapshot := [], files_scanned := 0, changes := [] }).files_scanned
  rw [hcount]
  decide

/-- C3 amended: the budget is enforced at directory granularity — if every
directory yielded by walking any scanned root holds at most k files, the
completed job's files_scanned is at most 499 + k (hence at most 500 when
directories hold at most one file), the snapshot holds at most
files_scanned entries, and reaching the budget still completes the job
rather than failing it. -/
theorem C3_file_budget_amended (fs : FileSystem) (env : Env) (st : ScannerState)
    (host : String) (l : List String) (k : Nat)
    (hk : ∀ p ∈ l, ∀ e ∈ fs.walk p, e.files.length ≤ k) :
    ∃ j, dictLookup (start_scan fs env st host (.paths l)).1.scans env.job_id = some j ∧
      j.status = "completed" ∧ j.files_scanned ≤ 499 + k ∧
      (scanRoots fs l
        { snapshot := [], files_scanned := 0, changes := [] }).snapshot.length ≤
        j.files_scanned := by
  refine ⟨_, start_scan_paths_job fs env st host l, rfl, ?_, ?_⟩
  · show (scanRoots fs l
        { snapshot := [], files_scanned := 0, changes := [] }).files_scanned ≤ 499 + k
    rw [scanRoots_eq]
    exact scanSnapCore_count_le fs k l (([] : Snapshot), 0) hk (by omega)
  · show (scanRoots fs l
        { snapshot := [], files_scanned := 0, changes := [] }).snapshot.length ≤
      (scanRoots fs l { snapshot := [], files_scanned := 0, changes := [] }).files_scanned
    rw [scanRoots_eq]
    exact scanSnapCore_snap_le fs l (([] : Snapshot), 0) (by simp)

/-- C3 witness: the amended bound applied at a concrete scan (directories of
at most one file, `k = 1`): the completed job scanned at most 500 files. -/
theorem C3_witness :
    ∃ j, dictLookup (start_scan emptyFS env0 st0 "WIN-SRV-01"
        (.paths ["C:\\missing"])).1.scans env0.job_id = some j ∧
      j.files_scanned ≤ 499 + 1 := by
  obtain ⟨j, hj, -, hle, -⟩ := C3_file_budget_amended emptyFS env0 st0 "WIN-SRV-01"
    ["C:\\missing"] 1 (by intro p hp e he; cases he)
  exact ⟨j, hj, hle⟩

/-- C8: diffing a snapshot against a baseline holding that very snapshot
yields no changes; a path present in both snapshots with identical
fingerprint never appears in the diff output; and membership in the diff
output is exactly the new/modified/deleted conditions determined by
lookup membership and fingerprint inequality. -/
theorem C8_diff_properties (S base cur : Snapshot)
    (hS : (S.map Prod.fst).Nodup)
    (hb : (base.map Prod.fst).Nodup) (hc : (cur.map Prod.fst).Nodup) :
    compare_with_baseline S S = [] ∧
    (∀ (p : String) (cd bd : FileData),
       dictLookup cur p = some cd → dictLookup base p = some bd → cd.hash = bd.hash →
       ∀ r ∈ compare_with_baseline base cur, r.path ≠ p) ∧
    (∀ r : ChangeRecord, r ∈ compare_with_baseline base cur ↔
      ((∃ cd, dictLookup cur r.path = some cd ∧ dictLookup base r.path = none ∧
          r = { path := r.path, change := "new", severity := assess_file_risk r.path,
                hash := some cd.hash }) ∨
       (∃ cd bd, dictLookup cur r.path = some cd ∧ dictLookup base r.path = some bd ∧
          cd.hash ≠ bd.hash ∧
          r = { path := r.path, change := "modified",
                severity := assess_file_risk r.path,
                hash := some cd.hash, previous_hash := some bd.hash }) ∨
       (∃ bd, dictLookup base r.path = some bd ∧ dictLookup cur r.path = none ∧
          r = { path := r.path, change := "deleted",
                severity := assess_file_risk r.path }))) := by
  refine ⟨compare_self S hS, ?_, fun r => mem_compare_iff base cur hb hc r⟩
  intro p cd bd hcd hbd hhash r hr hrp
  rcases (mem_compare_iff base cur hb hc r).mp hr with
    ⟨cd', h1, h2, -⟩ | ⟨cd', bd', h1, h2, h3, -⟩ | ⟨bd', h1, h2, -⟩
  · rw [hrp] at h2
    rw [h2] at hbd
    cases hbd
  · rw [hrp] at h1 h2
    rw [hcd] at h1
    rw [hbd] at h2
    cases h1
    cases h2
    exact h3 hhash
  · rw [hrp] at h2
    rw [h2] at hcd
    cases hcd

/-- C8 witness: the identity diff evaluated at a concrete one-file
snapshot. -/
theorem C8_witness :
    compare_with_baseline
      [("C:\\a", { hash := "h1", size := 1, modified := "t" })]
      [("C:\\a", { hash := "h1", size := 1, modified := "t" })] = [] :=
  (C8_diff_properties
    [("C:\\a", { hash := "h1", size := 1, modified := "t" })]
    [("C:\\a", { hash := "h1", size := 1, modified := "t" })]
    [("C:\\a", { hash := "h1", size := 1, modified := "t" })]
    (by decide) (by decide) (by decide)).1

/-- C9: once a host has a stored baseline, no later start_scan (any host,
any argument), no create_baseline call and no diff comparison modifies or
replaces it — the stored record is preserved verbatim, and a scan of a host
that already has a baseline leaves the whole baseline table unchanged. -/
theorem C9_baseline_frame (fs : FileSystem) (env : Env) (st : ScannerState)
    (host : String) (b : Baseline)
    (hb : dictLookup st.baselines host = some b) :
    (∀ (host2 : String) (arg : ScanPathsArg),
       dictLookup (start_scan fs env st host2 arg).1.baselines host = some b) ∧
    (∀ host2 : String,
       dictLookup (create_baseline fs env st host2).1.baselines host = some b) ∧
    (∀ l : List String, (execute_scan fs env st.baselines host l).2 = st.baselines) := by
  have key : ∀ (host2 : String) (l : List String),
      dictLookup (execute_scan fs env st.baselines host2 l).2 host = some b := by
    intro host2 l
    cases hl : dictLookup st.baselines host2 with
    | some b2 =>
        rw [execute_scan_baselines_some fs env st.baselines host2 l b2 hl]
        exact hb
    | none =>
        have hne : host ≠ host2 := fun he => by
          rw [he, hl] at hb
          cases hb
        rw [execute_scan_baselines_none fs env st.baselines host2 l hl,
          dictLookup_insert_ne _ _ _ _ hne]
        exact hb
  refine ⟨?_, ?_, fun l => execute_scan_baselines_some fs env st.baselines host l b hb⟩
  · intro host2 arg
    cases arg with
    | invalid msg => exact hb
    | noPaths => exact key host2 default_scan_paths
    | paths l => exact key host2 l
  · intro host2
    exact key host2 default_scan_paths

/-- C9 witness: a scan of a different host leaves the stored baseline of
`WIN-SRV-01` intact, field for field. -/
theorem C9_witness :
    dictLookup (start_scan emptyFS env0 stWithBaseline "OTHER-HOST"
        (.paths ["C:\\x"])).1.baselines "WIN-SRV-01" =
      some { host_id := "WIN-SRV-01", created_at := "2025-12-31T00:00:00",
             snapshot := [], file_count := 0 } :=
  (C9_baseline_frame emptyFS env0 stWithBaseline "WIN-SRV-01" _ rfl).1
    "OTHER-HOST" (.paths ["C:\\x"])

/-- C10: when scan execution aborts with an escaping exception — modelled by
the one reachable raise, a non-iterable `scan_paths` value whose iteration
raises at the loop header — the stored job carries status "failed" and the
exception message, while every result field keeps its creation value
(changes = [], baseline_score = 100, files_scanned = 0, severity = "low",
no completion timestamp), the baseline table is untouched and the call
returns status "failed": results are only ever written by the single final
update after all work succeeds. -/
theorem C10_failed_scan_keeps_initial_fields (fs : FileSystem) (env : Env)
    (st : ScannerState) (host : String) (msg : String) :
    ∃ j, dictLookup (start_scan fs env st host (.invalid msg)).1.scans env.job_id =
        some j ∧
      j.status = "failed" ∧ j.error = some msg ∧ j.changes = [] ∧
      j.baseline_score = 100 ∧ j.files_scanned = 0 ∧ j.severity = "low" ∧
      j.completed_at = none ∧
      (start_scan fs env st host (.invalid msg)).1.baselines = st.baselines ∧
      (start_scan fs env st host (.invalid msg)).2.status = "failed" := by
  refine ⟨{ job_id := env.job_id, host := host, status := "failed",
            timestamp := env.timestamp, scan_paths := .invalid msg,
            baseline_score := 100, changes := [], files_scanned := 0,
            severity := "low", error := some msg, completed_at := none },
    ?_, rfl, rfl, rfl, rfl, rfl, rfl, rfl, rfl, rfl⟩
  simp only [start_scan]
  exact dictLookup_insert_self _ _ _

end Siren
